import Mathlib

/-!
Verification of the permissions library (ABAC engine in permissions.py and
the Role hierarchy in roles.py) against its specification.

The Python code is embedded shallowly:

- Python values that flow through the attribute cache are modelled by the
  inductive type PyVal.  The code base targets Python 2 (it uses
  dict.iteritems), so the builtin filter is eager: it materializes the
  whole init-result list before all aggregates it.
- A Python dict is modelled as an insertion-ordered association list
  (List (String × PyVal)); dict assignment updates in place or appends.
- The attribute cache entry that the Python code attaches to the actor
  object (the abac_dict obtained through setdefaultattr) is threaded
  through the engine functions as explicit state: every engine operation
  receives the current entry and returns the updated one.  A fresh actor
  corresponds to the empty entry.
- Caller-supplied init and assertion functions are Lean functions paired
  with a numeric identifier; the engine returns the trace of identifiers
  it actually executed, which makes at-most-once and short-circuit
  properties statable.
-/

namespace Permissions

/-- Map from action name to the ordered list of deny reason strings, the
shape of the value stored under the reserved key of the cache entry. -/
abbrev ReasonsMap := List (String × List String)

/-- Python values stored in an abac dict: None, bools, ints, strings and
the nested reasons dict. -/
inductive PyVal : Type where
  | none : PyVal
  | bool : Bool → PyVal
  | int : Int → PyVal
  | str : String → PyVal
  | reasons : ReasonsMap → PyVal
deriving DecidableEq, Repr

/-- Python truthiness of a value (Python 2 and 3 agree on these shapes). -/
def PyVal.truthy : PyVal → Bool
  | .none => false
  | .bool b => b
  | .int n => n != 0
  | .str s => s != ""
  | .reasons m => !m.isEmpty

/-- Python equality between stored values; True equals 1 and False equals 0
because bool is a subclass of int. -/
def pyEq : PyVal → PyVal → Bool
  | .bool x, .int n => (if x then (1 : Int) else 0) == n
  | .int n, .bool x => n == (if x then (1 : Int) else 0)
  | x, y => x == y

/-- Lookup in an insertion-ordered association list, the model of
Python dict indexing with .get. -/
def alGet {α : Type} : List (String × α) → String → Option α
  | [], _ => Option.none
  | p :: rest, k => if p.1 = k then some p.2 else alGet rest k

/-- Python dict assignment: overwrite the value of an existing key in
place, otherwise append the new binding at the end. -/
def alSet {α : Type} : List (String × α) → String → α → List (String × α)
  | [], k, v => [(k, v)]
  | p :: rest, k, v =>
    if p.1 = k then (k, v) :: rest else p :: alSet rest k v

/-- Python membership test (k in d) for a dict. -/
def alContains {α : Type} : List (String × α) → String → Bool
  | [], _ => false
  | p :: rest, k => p.1 = k || alContains rest k

/-- The attribute cache entry, the abac_dict of permissions.py. -/
abbrev AbacDict := List (String × PyVal)

/-- Embedding of get_deny_reason (permissions.py, lines 139 to 147):
abac_dict.get(reasons key, empty dict).get(action, empty list). -/
def get_deny_reason (abac_dict : AbacDict) (action : String) :
    List String :=
  match alGet abac_dict "_reasons" with
  | some (.reasons m) => (alGet m action).getD []
  | _ => []

/-- Embedding of set_deny_reason (permissions.py, lines 150 to 153):
setdefault the reasons dict, setdefault the list for the action, append
the message. -/
def set_deny_reason (abac_dict : AbacDict) (action : String)
    (reason_message : String) : AbacDict :=
  let m : ReasonsMap :=
    match alGet abac_dict "_reasons" with
    | some (.reasons m) => m
    | _ => []
  let cur : List String := (alGet m action).getD []
  alSet abac_dict "_reasons" (.reasons (alSet m action (cur ++ [reason_message])))

/-- A caller-supplied init function.  In Python it is a callable
f(abac_dict, actor_object, context) that may mutate the dict and returns a
value (implicitly None).  The fid field is an identifier used only to
record which functions were executed. -/
structure InitFn : Type where
  fid : Nat
  run : AbacDict → PyVal → PyVal → AbacDict × PyVal

/-- A caller-supplied assertion function; in Python it is a callable
a(actor_object, resource_object, action, context, abac_dict=abac_dict)
that may mutate the dict and returns a truthy or falsy value. -/
structure AssertFn : Type where
  fid : Nat
  run : PyVal → PyVal → String → PyVal → AbacDict → AbacDict × PyVal

/-- One entry of the principals registry.  In Python this is a dict whose
reserved key maps to the init function list and whose other keys map
action names to assertion lists; the two kinds of callables are kept in
separate fields here because they have different signatures. -/
structure Principal : Type where
  initFns : List InitFn
  assertions : List (String × List AssertFn)

/-- The process-wide principals registry: actor type to principal entry. -/
abbrev Principals := List (String × Principal)

/-- principals.get(actor_type, empty dict).get(action, empty list):
the assertion chain for an actor type and action, empty when either is
unknown. -/
def lookupAssertions (P : Principals) (actor_type action : String) :
    List AssertFn :=
  match alGet P actor_type with
  | some p => (alGet p.assertions action).getD []
  | Option.none => []

/-- principals.get(actor_type, empty dict).get(init key, empty list):
the init function list for an actor type, empty when unknown. -/
def lookupInit (P : Principals) (actor_type : String) : List InitFn :=
  match alGet P actor_type with
  | some p => p.initFns
  | Option.none => []

/-- Evaluation of
all(filter(lambda v: v is not None, (f(abac_dict, actor, ctx) for f in init)))
in `_load_abac_dict`.  Under Python 2 — the semantics of this code base,
which uses dict.iteritems — the builtin filter returns a list: it
eagerly consumes the generator, so every init function executes against
the shared dict in registration order no matter what the earlier ones
returned; the None results are dropped from that list and all then takes
the conjunction of the truthiness of the remaining values.  Returns the
final dict, the aggregate bool, and the trace of executed init function
identifiers in order. -/
def runInits (fs : List InitFn) (d : AbacDict) (actor ctx : PyVal) :
    AbacDict × Bool × List Nat :=
  match fs with
  | [] => (d, true, [])
  | f :: rest =>
    let r := f.run d actor ctx
    let t := runInits rest r.1 actor ctx
    (t.1, (if r.2 = PyVal.none then true else r.2.truthy) && t.2.1,
     f.fid :: t.2.2)

/-- Embedding of `_load_abac_dict` (permissions.py, lines 112 to 124).  The
cache entry d is the dict returned by `_get_abac_dict`; when it is empty or
lacks the key actor_type the init functions run and the aggregate result
is stored under the key actor_type itself.  Returns the updated entry and
the trace of executed init identifiers. -/
def loadAbacDict (P : Principals) (actor_type : String)
    (actor_object context : PyVal) (d : AbacDict) : AbacDict × List Nat :=
  if d.isEmpty ∨ ¬ alContains d actor_type then
    let t := runInits (lookupInit P actor_type) d actor_object context
    (alSet t.1 actor_type (.bool t.2.1), t.2.2)
  else (d, [])

/-- Embedding of get (permissions.py, lines 93 to 109):
`_load_abac_dict`(...).get(actor_attribute).  A missing key and a stored
None both come back as None, as dict.get does.  Returns the value, the
updated cache entry and the init trace. -/
def get (P : Principals) (actor_type : String) (actor_object : PyVal)
    (actor_attribute : String) (context : PyVal) (d : AbacDict) :
    PyVal × AbacDict × List Nat :=
  let t := loadAbacDict P actor_type actor_object context d
  ((alGet t.1 actor_attribute).getD PyVal.none, t.1, t.2)

/-- The value_expr argument of is_: either a plain value compared with ==,
or a callable applied to the attribute value (its result judged by
truthiness, as the code does with if not match). -/
inductive ValueExpr : Type where
  | val : PyVal → ValueExpr
  | call : (PyVal → PyVal) → ValueExpr

/-- Embedding of is_ (permissions.py, lines 68 to 90): read the attribute
through get, test it against value_expr, and on mismatch raise
PermissionDenied carrying get_deny_reason of the same cache entry.
Except models the raise; ok is the implicit None return. -/
def is_ (P : Principals) (actor_type : String) (actor_object : PyVal)
    (actor_attribute : String) (value_expr : ValueExpr) (context : PyVal)
    (d : AbacDict) : Except (List String) Unit × AbacDict × List Nat :=
  let t := get P actor_type actor_object actor_attribute context d
  let m : Bool :=
    match value_expr with
    | .val v => pyEq t.1 v
    | .call f => (f t.1).truthy
  if m then (.ok (), t.2.1, t.2.2)
  else (.error (get_deny_reason t.2.1 actor_attribute), t.2.1, t.2.2)

/-- Evaluation of all(a(actor, resource, action, ctx, abac_dict=d) for a
in assertions) inside can: each assertion runs against the current dict in
registration order and all stops at the first falsy result.  Returns the
final dict, the aggregate bool, and the trace of executed assertion
identifiers. -/
def runAsserts (fs : List AssertFn) (actor resource : PyVal)
    (action : String) (ctx : PyVal) (d : AbacDict) :
    AbacDict × Bool × List Nat :=
  match fs with
  | [] => (d, true, [])
  | a :: rest =>
    let r := a.run actor resource action ctx d
    if r.2.truthy then
      let t := runAsserts rest actor resource action ctx r.1
      (t.1, t.2.1, a.fid :: t.2.2)
    else (r.1, false, [a.fid])

/-- Embedding of can (permissions.py, lines 46 to 65): look up the
assertion chain, take the cache entry through `_get_abac_dict` (which does
not initialize it), evaluate the all(...) expression for its side effects
and fall off the end of the function, returning None.  The aggregate bool
of all(...) is discarded by the source, exactly as here. -/
def can (P : Principals) (actor_type : String) (actor_object : PyVal)
    (action : String) (resource_object context : PyVal) (d : AbacDict) :
    PyVal × AbacDict × List Nat :=
  let assertions := lookupAssertions P actor_type action
  let t := runAsserts assertions actor_object resource_object action context d
  (PyVal.none, t.1, t.2.2)

/-!
Embedding of roles.py.  A Role enum is declared as an ordered list of
(name, numeric value) members; enum machinery calls Role.init for each
member in declaration order while the earlier members are already part of
the class.  A Role value is modelled by the name of its enum class
together with its numeric rank; the class name stands for class identity.
-/

/-- One declared member of a Role enum: its name and numeric value. -/
structure RoleMember : Type where
  name : String
  value : Int
deriving DecidableEq, Repr

/-- Role.init (roles.py, lines 30 to 37) for the member being added: if
any already-defined member of the class has the same value, raise
ValueError whose message names the new member and the canonical existing
member, which is the first member with that value; otherwise the member
joins the class.  The error payload is that pair of names. -/
def addRoleMember (defined : List RoleMember) (m : RoleMember) :
    Except (String × String) (List RoleMember) :=
  match defined.find? (fun e => e.value == m.value) with
  | some e => .error (m.name, e.name)
  | Option.none => .ok (defined ++ [m])

/-- Processing the remaining member declarations given the members
defined so far. -/
def defineRoleSetFrom (defined : List RoleMember) :
    List RoleMember → Except (String × String) (List RoleMember)
  | [] => .ok defined
  | m :: rest =>
    match addRoleMember defined m with
    | .ok d => defineRoleSetFrom d rest
    | .error e => .error e

/-- Constructing a Role enum class from its member declarations in
order; yields the members, or the ValueError payload raised by Role.init
at the first duplicated value. -/
def defineRoleSet (ms : List RoleMember) :
    Except (String × String) (List RoleMember) :=
  defineRoleSetFrom [] ms

/-- A Role value: the name of its enum class and its numeric rank. -/
structure RoleVal : Type where
  roleSet : String
  rank : Int
deriving DecidableEq, Repr

/-- Role.ge (roles.py, lines 40 to 43): same class compares ranks;
otherwise the method returns super(Role, self).ge(other), which raises
for cross-class operands — TypeError through the stdlib enum of
Python 3 or the ordering stubs of the enum34 backport on Python 2, an
AttributeError otherwise — and never reaches a default comparison.  The
raise is modelled as an error result. -/
def roleGe (a b : RoleVal) : Except String Bool :=
  if a.roleSet = b.roleSet then .ok (decide (a.rank ≥ b.rank))
  else .error "unorderable types"

/-- Role.gt (roles.py, lines 45 to 48), raising like roleGe across
classes. -/
def roleGt (a b : RoleVal) : Except String Bool :=
  if a.roleSet = b.roleSet then .ok (decide (a.rank > b.rank))
  else .error "unorderable types"

/-- Role.le (roles.py, lines 50 to 53), raising like roleGe across
classes. -/
def roleLe (a b : RoleVal) : Except String Bool :=
  if a.roleSet = b.roleSet then .ok (decide (a.rank ≤ b.rank))
  else .error "unorderable types"

/-- Role.lt (roles.py, lines 55 to 58), raising like roleGe across
classes. -/
def roleLt (a b : RoleVal) : Except String Bool :=
  if a.roleSet = b.roleSet then .ok (decide (a.rank < b.rank))
  else .error "unorderable types"

/-- Values of the declared members are pairwise distinct. -/
def distinctRanks (ms : List RoleMember) : Prop :=
  ms.Pairwise (fun a b => a.value ≠ b.value)

instance (ms : List RoleMember) : Decidable (distinctRanks ms) := by
  unfold distinctRanks
  infer_instance

/-!
Concrete registries and caller-supplied functions used to evaluate the
engine on explicit inputs.
-/

/-- Init function writing attribute flag, returning None. -/
def initFlag : InitFn := ⟨0, fun d _ _ => (alSet d "flag" (.bool true), PyVal.none)⟩

/-- Init function writing attribute a, returning False. -/
def initFalse : InitFn := ⟨0, fun d _ _ => (alSet d "a" (.int 1), PyVal.bool false)⟩

/-- Init function writing attribute b, returning None. -/
def initWriteB : InitFn := ⟨1, fun d _ _ => (alSet d "b" (.int 2), PyVal.none)⟩

/-- Assertion returning False without touching the entry. -/
def assertFalse : AssertFn := ⟨1, fun _ _ _ _ d => (d, PyVal.bool false)⟩

/-- Assertion writing attribute x2 and returning True. -/
def assertWrite2 : AssertFn := ⟨2, fun _ _ _ _ d => (alSet d "x2" (.bool true), PyVal.bool true)⟩

/-- Assertion writing attribute x3 and returning True. -/
def assertWrite3 : AssertFn := ⟨3, fun _ _ _ _ d => (alSet d "x3" (.bool true), PyVal.bool true)⟩

/-- Registry whose user principal has one init function and an action
with no assertions. -/
def regInitOnly : Principals := [("user", ⟨[initFlag], [("read", [])]⟩)]

/-- Registry whose user principal has the init chain
[initFalse, initWriteB]. -/
def regFalseThenB : Principals := [("user", ⟨[initFalse, initWriteB], []⟩)]

/-- Registry whose user principal has the assertion chain
[assertFalse, assertWrite2, assertWrite3] for action delete. -/
def regThreeAsserts : Principals :=
  [("user", ⟨[], [("delete", [assertFalse, assertWrite2, assertWrite3])]⟩)]

/-- A predicate value_expr: true exactly on integers at least 18. -/
def atLeast18 : PyVal → PyVal := fun v =>
  match v with
  | .int n => .bool (decide (18 ≤ n))
  | _ => .bool false

/-- Member declarations ROOT = 1, ADMIN = 5, USER = 10. -/
def membersDistinct : List RoleMember := [⟨"ROOT", 1⟩, ⟨"ADMIN", 5⟩, ⟨"USER", 10⟩]

/-- Member declarations X = 1, Y = 1, a duplicated rank. -/
def membersDup : List RoleMember := [⟨"X", 1⟩, ⟨"Y", 1⟩]

/-!
Basic lemmas about the dict model, shared by the claim theorems.
-/

theorem alGet_nil {α : Type} (k : String) :
    alGet ([] : List (String × α)) k = Option.none := rfl

theorem alGet_alSet_self {α : Type} (xs : List (String × α)) (k : String)
    (v : α) : alGet (alSet xs k v) k = some v := by
  induction xs with
  | nil => simp [alGet, alSet]
  | cons p rest ih =>
    by_cases h : p.1 = k
    · simp [alSet, h, alGet]
    · simp [alSet, h, alGet, ih]

theorem alGet_alSet_ne {α : Type} (xs : List (String × α)) {k k1 : String}
    (v : α) (h : k1 ≠ k) : alGet (alSet xs k v) k1 = alGet xs k1 := by
  have hk : k ≠ k1 := Ne.symm h
  induction xs with
  | nil => simp [alGet, alSet, hk]
  | cons p rest ih =>
    by_cases hp : p.1 = k
    · simp [alSet, hp, alGet, hk, hp ▸ hk]
    · simp [alSet, hp, alGet, ih]

theorem alContains_alSet_self {α : Type} (xs : List (String × α))
    (k : String) (v : α) : alContains (alSet xs k v) k = true := by
  induction xs with
  | nil => simp [alSet, alContains]
  | cons p rest ih =>
    by_cases h : p.1 = k
    · simp [alSet, h, alContains]
    · simp [alSet, h, alContains, ih]

theorem alGet_eq_none_of_not_contains {α : Type} (xs : List (String × α))
    (k : String) (h : alContains xs k = false) : alGet xs k = Option.none := by
  induction xs with
  | nil => simp [alGet]
  | cons p rest ih =>
    simp [alContains] at h
    simp [alGet, h.1, ih h.2]

theorem isEmpty_false_of_alContains {α : Type} (xs : List (String × α))
    (k : String) (h : alContains xs k = true) : xs.isEmpty = false := by
  cases xs with
  | nil => simp [alContains] at h
  | cons p rest => simp

/-- The initialization guard of loadAbacDict reduces to the absence of
the marker key: an empty dict contains no key at all. -/
theorem loadAbacDict_guard (d : AbacDict) (t : String) :
    (d.isEmpty = true ∨ ¬ alContains d t = true) ↔ alContains d t = false := by
  constructor
  · intro h
    cases h with
    | inl h =>
      cases d with
      | nil => simp [alContains]
      | cons p rest => simp at h
    | inr h => simpa using h
  · intro h
    right
    simp [h]

/-- When the marker key is present the load is a no-op: the entry is
returned as is and no init function runs. -/
theorem loadAbacDict_of_contains (P : Principals) (t : String)
    (a c : PyVal) (d : AbacDict) (h : alContains d t = true) :
    loadAbacDict P t a c d = (d, []) := by
  unfold loadAbacDict
  rw [if_neg]
  intro hg
  rw [(loadAbacDict_guard d t).mp hg] at h
  exact Bool.false_ne_true h

/-- When the marker key is absent the load runs the init functions and
stores the aggregate under the marker key. -/
theorem loadAbacDict_of_not_contains (P : Principals) (t : String)
    (a c : PyVal) (d : AbacDict) (h : alContains d t = false) :
    loadAbacDict P t a c d =
      (alSet (runInits (lookupInit P t) d a c).1 t
         (.bool (runInits (lookupInit P t) d a c).2.1),
       (runInits (lookupInit P t) d a c).2.2) := by
  unfold loadAbacDict
  rw [if_pos ((loadAbacDict_guard d t).mpr h)]

/-- After a load the marker key is always present. -/
theorem alContains_loadAbacDict (P : Principals) (t : String)
    (a c : PyVal) (d : AbacDict) :
    alContains (loadAbacDict P t a c d).1 t = true := by
  cases h : alContains d t with
  | true => rw [loadAbacDict_of_contains P t a c d h]; exact h
  | false =>
    rw [loadAbacDict_of_not_contains P t a c d h]
    exact alContains_alSet_self _ t _

/-- Every init function executes, in registration order: the trace of a
run is the full list of identifiers, whatever the results were. -/
theorem runInits_trace (fs : List InitFn) (d : AbacDict) (a c : PyVal) :
    (runInits fs d a c).2.2 = fs.map (fun f => f.fid) := by
  induction fs generalizing d with
  | nil => simp [runInits]
  | cons f rest ih => simp [runInits, ih]

/-- When every init function returns None on every entry, the aggregate
is vacuously true: all the results are filtered out. -/
theorem runInits_agg_of_all_none (fs : List InitFn) (d : AbacDict)
    (a c : PyVal) (h : ∀ f ∈ fs, ∀ d0 : AbacDict, (f.run d0 a c).2 = PyVal.none) :
    (runInits fs d a c).2.1 = true := by
  induction fs generalizing d with
  | nil => simp [runInits]
  | cons f rest ih =>
    have hf := h f (List.mem_cons_self f rest) d
    simp [runInits, hf, ih _ fun g hg => h g (List.mem_cons_of_mem f hg)]

/-- Constructing from an intermediate state succeeds exactly when the
remaining members have pairwise distinct values, none of which collides
with a value already defined. -/
theorem defineRoleSetFrom_ok_iff (ms : List RoleMember)
    (defined : List RoleMember) :
    (defineRoleSetFrom defined ms).isOk = true ↔
      ((∀ m ∈ ms, ∀ e ∈ defined, e.value ≠ m.value) ∧ distinctRanks ms) := by
  induction ms generalizing defined with
  | nil => simp [defineRoleSetFrom, distinctRanks, Except.isOk, Except.toBool]
  | cons m rest ih =>
    cases hf : defined.find? (fun e => e.value == m.value) with
    | some e0 =>
      have hh : defineRoleSetFrom defined (m :: rest) = .error (m.name, e0.name) := by
        simp [defineRoleSetFrom, addRoleMember, hf]
      rw [hh]
      have hmem : e0 ∈ defined := List.mem_of_find?_eq_some hf
      have heq : e0.value = m.value := by
        have := List.find?_some hf
        simpa using this
      simp only [Except.isOk, Except.toBool, Bool.false_eq_true, false_iff]
      rintro ⟨h1, _⟩
      exact h1 m (List.mem_cons_self m rest) e0 hmem heq
    | none =>
      have hh : defineRoleSetFrom defined (m :: rest)
          = defineRoleSetFrom (defined ++ [m]) rest := by
        simp [defineRoleSetFrom, addRoleMember, hf]
      have hnone : ∀ e ∈ defined, e.value ≠ m.value := by
        intro e he
        have := List.find?_eq_none.mp hf e he
        simpa using this
      rw [hh, ih]
      simp only [distinctRanks, List.pairwise_cons, List.mem_append,
        List.mem_singleton, List.mem_cons]
      constructor
      · rintro ⟨h1, h2⟩
        refine ⟨?_, ?_, h2⟩
        · intro x hx e he
          cases hx with
          | inl hxm => exact hxm ▸ hnone e he
          | inr hxr => exact h1 x hxr e (Or.inl he)
        · intro x hx
          exact h1 x hx m (Or.inr (Or.inl rfl))
      · rintro ⟨h1, h2, h3⟩
        refine ⟨?_, h3⟩
        intro x hx e he
        cases he with
        | inl hed => exact h1 x (Or.inr hx) e hed
        | inr hem =>
          cases hem with
          | inl hem2 => exact hem2 ▸ h2 x hx
          | inr hnil => exact absurd hnil (List.not_mem_nil e)

/-- When construction from an intermediate state fails, the error names
a remaining member and an earlier member sharing its value. -/
theorem defineRoleSetFrom_error_names (ms : List RoleMember)
    (defined : List RoleMember) (a e : String)
    (h : defineRoleSetFrom defined ms = .error (a, e)) :
    ∃ m2 ∈ ms, m2.name = a ∧
      ∃ m1, (m1 ∈ defined ∨ m1 ∈ ms) ∧ m1.name = e ∧ m1.value = m2.value := by
  induction ms generalizing defined with
  | nil => simp [defineRoleSetFrom] at h
  | cons m rest ih =>
    cases hf : defined.find? (fun x => x.value == m.value) with
    | some e0 =>
      have hh : defineRoleSetFrom defined (m :: rest) = .error (m.name, e0.name) := by
        simp [defineRoleSetFrom, addRoleMember, hf]
      rw [hh] at h
      have hae : m.name = a ∧ e0.name = e := by
        have := h
        simp only [Except.error.injEq, Prod.mk.injEq] at this
        exact this
      have heq : e0.value = m.value := by
        have := List.find?_some hf
        simpa using this
      exact ⟨m, List.mem_cons_self m rest, hae.1,
        e0, Or.inl (List.mem_of_find?_eq_some hf), hae.2, heq⟩
    | none =>
      have hh : defineRoleSetFrom defined (m :: rest)
          = defineRoleSetFrom (defined ++ [m]) rest := by
        simp [defineRoleSetFrom, addRoleMember, hf]
      rw [hh] at h
      obtain ⟨m2, hm2, ha, m1, hm1, he, hv⟩ := ih (defined ++ [m]) h
      refine ⟨m2, List.mem_cons_of_mem m hm2, ha, m1, ?_, he, hv⟩
      cases hm1 with
      | inl h0 =>
        cases List.mem_append.mp h0 with
        | inl hd => exact Or.inl hd
        | inr hs =>
          exact Or.inr (by rw [List.mem_singleton.mp hs]; exact List.mem_cons_self m rest)
      | inr h0 => exact Or.inr (List.mem_cons_of_mem m h0)

/-!
Claim theorems.
-/

/-- C1, counterexample: the claim says can("unknown_type", obj, "anything")
returns true (a bool).  On the code it returns None: the Python function
body ends with the bare expression all(...) and has no return statement,
so the value of the call is None, not True. -/
theorem can_unknown_type_counterexample :
    (can [] "unknown_type" (PyVal.str "obj") "anything" PyVal.none PyVal.none []).1
        = PyVal.none ∧
    PyVal.none ≠ PyVal.bool true := ⟨rfl, by decide⟩

/-- C1, amended: for an unknown actor type or action the registry lookup
yields the empty assertion chain, and with an empty chain can returns
None (not True: the function has no return statement), leaves the cache
entry unchanged, executes no assertion, and hence cannot raise. -/
theorem can_empty_chain_returns_none (P : Principals) (t : String)
    (obj : PyVal) (action : String) (r c : PyVal) (d : AbacDict) :
    (alGet P t = Option.none → lookupAssertions P t action = []) ∧
    (lookupAssertions P t action = [] →
       can P t obj action r c d = (PyVal.none, d, [])) := by
  constructor
  · intro h
    simp [lookupAssertions, h]
  · intro h
    simp [can, h, runAsserts]

/-- C1 witness: the amended theorem evaluated at the unknown actor type
of the claim. -/
theorem can_empty_chain_returns_none_witness :
    can [] "unknown_type" (PyVal.str "obj") "anything" PyVal.none PyVal.none []
      = (PyVal.none, [], []) :=
  (can_empty_chain_returns_none [] "unknown_type" (PyVal.str "obj") "anything"
      PyVal.none PyVal.none []).2 rfl

/-- C2: initialization runs at most once per cache entry and actor type.
Once the marker key is present the load returns the entry unchanged with
an empty init trace; a second load after any load is a no-op; and a
second get against the updated entry reuses the attributes, executing no
init function. -/
theorem init_runs_at_most_once (P : Principals) (t : String) (a c : PyVal)
    (d : AbacDict) :
    (alContains d t = true → loadAbacDict P t a c d = (d, [])) ∧
    loadAbacDict P t a c (loadAbacDict P t a c d).1
      = ((loadAbacDict P t a c d).1, []) ∧
    ∀ n1 n2 : String,
      (get P t a n2 c (get P t a n1 c d).2.1).2.1 = (get P t a n1 c d).2.1 ∧
      (get P t a n2 c (get P t a n1 c d).2.1).2.2 = [] := by
  refine ⟨fun h => loadAbacDict_of_contains P t a c d h, ?_, ?_⟩
  · exact loadAbacDict_of_contains P t a c _ (alContains_loadAbacDict P t a c d)
  · intro n1 n2
    have h1 : (get P t a n1 c d).2.1 = (loadAbacDict P t a c d).1 := rfl
    have h2 := loadAbacDict_of_contains P t a c _ (alContains_loadAbacDict P t a c d)
    constructor
    · show (loadAbacDict P t a c (get P t a n1 c d).2.1).1 = _
      rw [h1, h2]
    · show (loadAbacDict P t a c (get P t a n1 c d).2.1).2 = []
      rw [h1, h2]

/-- C2 witness: a cache entry already carrying the marker for user is
returned unchanged with no init executed. -/
theorem init_runs_at_most_once_witness :
    loadAbacDict [] "user" PyVal.none PyVal.none [("user", PyVal.bool true)]
      = ([("user", PyVal.bool true)], []) :=
  (init_runs_at_most_once [] "user" PyVal.none PyVal.none
      [("user", PyVal.bool true)]).1 (by decide)

/-- C3: can short-circuits the assertion chain.  For a registered chain
[f1, f2, f3] whose first function returns a falsy value, the executed
trace is exactly [f1] and the final cache entry is the one produced by
f1 alone, so f2 and f3 never execute. -/
theorem can_short_circuits (P : Principals) (t : String) (a : PyVal)
    (action : String) (r c : PyVal) (d : AbacDict) (f1 f2 f3 : AssertFn)
    (hch : lookupAssertions P t action = [f1, f2, f3])
    (hf : (f1.run a r action c d).2.truthy = false) :
    (can P t a action r c d).2.2 = [f1.fid] ∧
    (can P t a action r c d).2.1 = (f1.run a r action c d).1 := by
  unfold can
  rw [hch]
  simp [runAsserts, hf]

/-- C3 witness: the three-assertion registry with a falsy first assertion
executes only that assertion. -/
theorem can_short_circuits_witness :
    (can regThreeAsserts "user" (PyVal.str "u") "delete" PyVal.none PyVal.none []).2.2
        = [assertFalse.fid] ∧
    (can regThreeAsserts "user" (PyVal.str "u") "delete" PyVal.none PyVal.none []).2.1
        = (assertFalse.run (PyVal.str "u") PyVal.none "delete" PyVal.none []).1 :=
  can_short_circuits regThreeAsserts "user" (PyVal.str "u") "delete"
    PyVal.none PyVal.none [] assertFalse assertWrite2 assertWrite3 rfl rfl

/-- C4, counterexample: the claim says every can call initializes the
cache entry, running the registered init functions when the marker is
absent, before evaluating assertions.  With regInitOnly, whose init
writes attribute flag, can on a fresh entry leaves the entry completely
empty — neither flag nor the marker key user appears — whereas an actual
initialization of the same entry would have produced both. -/
theorem can_skips_init_counterexample :
    (can regInitOnly "user" (PyVal.str "bob") "read" PyVal.none PyVal.none []).2.1
        = ([] : AbacDict) ∧
    alContains ([] : AbacDict) "user" = false ∧
    (loadAbacDict regInitOnly "user" (PyVal.str "bob") PyVal.none []).1
        = [("flag", PyVal.bool true), ("user", PyVal.bool true)] :=
  ⟨rfl, rfl, rfl⟩

/-- C4, amended: can acquires the cache entry but does not initialize
it: the assertion chain is evaluated directly against the entry as
acquired, no init function runs, and with no registered assertions the
entry comes back unchanged — in particular the initialization marker
stays exactly as it was. -/
theorem can_acquires_without_init (P : Principals) (t : String) (a : PyVal)
    (action : String) (r c : PyVal) (d : AbacDict) :
    can P t a action r c d
      = (PyVal.none,
         (runAsserts (lookupAssertions P t action) a r action c d).1,
         (runAsserts (lookupAssertions P t action) a r action c d).2.2) ∧
    (lookupAssertions P t action = [] →
       can P t a action r c d = (PyVal.none, d, []) ∧
       alContains (can P t a action r c d).2.1 t = alContains d t) := by
  constructor
  · rfl
  · intro h
    have hc : can P t a action r c d = (PyVal.none, d, []) := by
      simp [can, h, runAsserts]
    exact ⟨hc, by rw [hc]⟩

/-- C4 witness: the amended theorem evaluated on regInitOnly with a
fresh entry. -/
theorem can_acquires_without_init_witness :
    can regInitOnly "user" (PyVal.str "bob") "read" PyVal.none PyVal.none []
      = (PyVal.none, [], []) :=
  ((can_acquires_without_init regInitOnly "user" (PyVal.str "bob") "read"
      PyVal.none PyVal.none []).2 rfl).1

/-- C5: when initialization runs for an actor type whose marker is
absent, every registered init function executes, in registration order,
each against the shared entry (the trace is the full identifier list);
the Python 2 filter materializes all the results eagerly, drops the None
ones, and the marker is stored under the actor-type key as the aggregate
truthy result of the rest — vacuously true when no init function is
registered or when every init function returns None. -/
theorem load_runs_every_init (P : Principals) (t : String) (a c : PyVal)
    (d : AbacDict) (h : alContains d t = false) :
    (loadAbacDict P t a c d).2 = (lookupInit P t).map (fun f => f.fid) ∧
    alGet (loadAbacDict P t a c d).1 t
      = some (.bool ((runInits (lookupInit P t) d a c).2.1)) ∧
    (lookupInit P t = [] →
       loadAbacDict P t a c d = (alSet d t (.bool true), [])) ∧
    ((∀ f ∈ lookupInit P t, ∀ d0 : AbacDict, (f.run d0 a c).2 = PyVal.none) →
       alGet (loadAbacDict P t a c d).1 t = some (PyVal.bool true)) := by
  have hl := loadAbacDict_of_not_contains P t a c d h
  have hg : alGet (loadAbacDict P t a c d).1 t
      = some (.bool ((runInits (lookupInit P t) d a c).2.1)) := by
    rw [hl]
    exact alGet_alSet_self _ _ _
  refine ⟨?_, hg, ?_, ?_⟩
  · rw [hl]
    exact runInits_trace _ _ _ _
  · intro h0
    rw [hl, h0]
    simp [runInits]
  · intro hnone
    rw [hg, runInits_agg_of_all_none _ _ _ _ hnone]

/-- C5 witness: with the chain [initFalse, initWriteB] on a fresh entry
both init functions execute in order — the second one sees the shared
entry and writes attribute b even though the first returned False — and
the marker aggregates to False. -/
theorem load_runs_every_init_witness :
    (loadAbacDict regFalseThenB "user" (PyVal.str "u") PyVal.none []).2
        = (lookupInit regFalseThenB "user").map (fun f => f.fid) ∧
    (loadAbacDict regFalseThenB "user" (PyVal.str "u") PyVal.none []).2 = [0, 1] ∧
    alGet (loadAbacDict regFalseThenB "user" (PyVal.str "u") PyVal.none []).1 "b"
        = some (PyVal.int 2) ∧
    alGet (loadAbacDict regFalseThenB "user" (PyVal.str "u") PyVal.none []).1 "user"
        = some (PyVal.bool false) :=
  ⟨(load_runs_every_init regFalseThenB "user" (PyVal.str "u") PyVal.none []
      rfl).1, rfl, rfl, rfl⟩

/-- C6: is_ raises PermissionDenied exactly when the check fails.  The
call succeeds (returns None, modelled ok) iff the attribute value
matches value_expr — by application and truthiness when value_expr is
callable, by equality otherwise; on denial the raised exception carries
the deny-reason list recorded for the attribute in the loaded entry,
which is the empty list when nothing was recorded, and the denial still
raises in that case. -/
theorem is__denies_iff_mismatch (P : Principals) (t : String) (a : PyVal)
    (attr : String) (ve : ValueExpr) (c : PyVal) (d : AbacDict) :
    ((is_ P t a attr ve c d).1 = Except.ok () ↔
       (match ve with
        | .val v => pyEq (get P t a attr c d).1 v = true
        | .call f => (f (get P t a attr c d).1).truthy = true)) ∧
    ((is_ P t a attr ve c d).1 ≠ Except.ok () →
       (is_ P t a attr ve c d).1
         = Except.error (get_deny_reason (get P t a attr c d).2.1 attr)) ∧
    (alGet (get P t a attr c d).2.1 "_reasons" = Option.none →
       (is_ P t a attr ve c d).1 = Except.ok () ∨
       (is_ P t a attr ve c d).1 = Except.error []) := by
  cases ve with
  | val v =>
    cases hm : pyEq (get P t a attr c d).1 v with
    | true =>
      refine ⟨by simp [is_, hm], ?_, ?_⟩
      · intro hne
        exact absurd (by simp [is_, hm]) hne
      · intro _
        left
        simp [is_, hm]
    | false =>
      refine ⟨by simp [is_, hm], ?_, ?_⟩
      · intro _
        simp [is_, hm]
      · intro hr
        right
        simp [is_, hm, get_deny_reason, hr]
  | call f =>
    cases hm : (f (get P t a attr c d).1).truthy with
    | true =>
      refine ⟨by simp [is_, hm], ?_, ?_⟩
      · intro hne
        exact absurd (by simp [is_, hm]) hne
      · intro _
        left
        simp [is_, hm]
    | false =>
      refine ⟨by simp [is_, hm], ?_, ?_⟩
      · intro _
        simp [is_, hm]
      · intro hr
        right
        simp [is_, hm, get_deny_reason, hr]

/-- C6 witness: age 17 fails the at-least-18 predicate and raises with
the empty reason list; age 18 passes and the call succeeds. -/
theorem is__denies_iff_mismatch_witness :
    (is_ [] "user" (PyVal.str "bob") "age" (ValueExpr.call atLeast18) PyVal.none
        [("user", PyVal.bool true), ("age", PyVal.int 17)]).1 = Except.error [] ∧
    (is_ [] "user" (PyVal.str "bob") "age" (ValueExpr.call atLeast18) PyVal.none
        [("user", PyVal.bool true), ("age", PyVal.int 18)]).1 = Except.ok () := by
  constructor
  · have h := (is__denies_iff_mismatch [] "user" (PyVal.str "bob") "age"
        (ValueExpr.call atLeast18) PyVal.none
        [("user", PyVal.bool true), ("age", PyVal.int 17)]).2.1
        (fun hok => Except.noConfusion hok)
    simpa using h
  · exact (is__denies_iff_mismatch [] "user" (PyVal.str "bob") "age"
        (ValueExpr.call atLeast18) PyVal.none
        [("user", PyVal.bool true), ("age", PyVal.int 18)]).1.mpr (by decide)

/-- C7: deny-reason round trip.  Recording a message appends it to the
ordered list for that action; reading an action with no recorded reasons
yields the empty list, whether the reasons dict is missing entirely or
merely lacks the action; and the concrete round trip of the claim holds. -/
theorem deny_reason_round_trip (d : AbacDict) (action msg : String) :
    get_deny_reason (set_deny_reason d action msg) action
      = get_deny_reason d action ++ [msg] ∧
    (alGet d "_reasons" = Option.none → get_deny_reason d action = []) ∧
    (∀ m : ReasonsMap, alGet d "_reasons" = some (.reasons m) →
       alGet m action = Option.none → get_deny_reason d action = []) ∧
    get_deny_reason (set_deny_reason ([] : AbacDict) "delete" "not owner") "delete"
      = ["not owner"] := by
  refine ⟨?_, ?_, ?_, rfl⟩
  · cases h : alGet d "_reasons" with
    | none => simp [get_deny_reason, set_deny_reason, h, alGet_alSet_self, alGet_nil]
    | some v =>
      cases v <;>
        simp [get_deny_reason, set_deny_reason, h, alGet_alSet_self, alGet_nil]
  · intro h
    simp [get_deny_reason, h]
  · intro m hm ha
    simp [get_deny_reason, hm, ha]

/-- C7 witness: on an entry with no reasons dict, reading yields the
empty list and one recording appends to it. -/
theorem deny_reason_round_trip_witness :
    get_deny_reason ([("user", PyVal.bool true)] : AbacDict) "delete" = [] ∧
    get_deny_reason (set_deny_reason [("user", PyVal.bool true)] "delete" "not owner")
        "delete" = [] ++ ["not owner"] := by
  constructor
  · exact (deny_reason_round_trip [("user", PyVal.bool true)] "delete" "not owner").2.1 rfl
  · rw [(deny_reason_round_trip [("user", PyVal.bool true)] "delete" "not owner").1,
      (deny_reason_round_trip [("user", PyVal.bool true)] "delete" "not owner").2.1 rfl]

/-- C8: declaring a Role set with two members sharing a rank value is a
construction-time ValueError whose message names both the new member and
the conflicting existing member; a set with pairwise distinct ranks
constructs without error. -/
theorem role_duplicate_rank_definition_error (ms : List RoleMember) :
    ((defineRoleSet ms).isOk = true ↔ distinctRanks ms) ∧
    (∀ a e : String, defineRoleSet ms = .error (a, e) →
       ∃ m2 ∈ ms, m2.name = a ∧
         ∃ m1 ∈ ms, m1.name = e ∧ m1.value = m2.value) := by
  constructor
  · have h := defineRoleSetFrom_ok_iff ms []
    simpa [defineRoleSet] using h
  · intro a e h
    obtain ⟨m2, hm2, ha, m1, hm1, he, hv⟩ :=
      defineRoleSetFrom_error_names ms [] a e h
    refine ⟨m2, hm2, ha, m1, ?_, he, hv⟩
    cases hm1 with
    | inl h0 => exact absurd h0 (List.not_mem_nil m1)
    | inr h0 => exact h0

/-- C8 witness: ROOT, ADMIN, USER with distinct ranks construct, and the
duplicated declaration X = 1, Y = 1 yields an error naming Y and X. -/
theorem role_duplicate_rank_definition_error_witness :
    (defineRoleSet membersDistinct).isOk = true ∧
    (∃ m2 ∈ membersDup, m2.name = "Y" ∧
       ∃ m1 ∈ membersDup, m1.name = "X" ∧ m1.value = m2.value) :=
  ⟨(role_duplicate_rank_definition_error membersDistinct).1.mpr (by decide),
   (role_duplicate_rank_definition_error membersDup).2 "Y" "X" rfl⟩

/-- C9: the spec requires cross-set ordering not to throw, but the code
raises.  Within one Role set the four predicates compare by rank, as
claimed; across two different sets, however, each method defers to
super(Role, self) comparison, which raises for cross-class operands
instead of degrading to any default comparison, so all four ordering
operators error out. -/
theorem role_cross_set_comparison_raises (a b : RoleVal) :
    (a.roleSet = b.roleSet →
       roleLt a b = .ok (decide (a.rank < b.rank)) ∧
       roleLe a b = .ok (decide (a.rank ≤ b.rank)) ∧
       roleGt a b = .ok (decide (a.rank > b.rank)) ∧
       roleGe a b = .ok (decide (a.rank ≥ b.rank))) ∧
    (a.roleSet ≠ b.roleSet →
       roleLt a b = .error "unorderable types" ∧
       roleLe a b = .error "unorderable types" ∧
       roleGt a b = .error "unorderable types" ∧
       roleGe a b = .error "unorderable types") := by
  constructor
  · intro h
    simp [roleLt, roleLe, roleGt, roleGe, h]
  · intro h
    simp [roleLt, roleLe, roleGt, roleGe, h]

/-- C9 witness: ROOT of MyRoles is below ADMIN of MyRoles by rank, while
comparing ROOT of MyRoles against a member of Other raises. -/
theorem role_cross_set_comparison_raises_witness :
    roleLt ⟨"MyRoles", 1⟩ ⟨"MyRoles", 5⟩ = .ok true ∧
    roleLt ⟨"MyRoles", 1⟩ ⟨"Other", 3⟩ = .error "unorderable types" := by
  constructor
  · have h := ((role_cross_set_comparison_raises ⟨"MyRoles", 1⟩ ⟨"MyRoles", 5⟩).1 rfl).1
    rw [h]
    rfl
  · exact ((role_cross_set_comparison_raises ⟨"MyRoles", 1⟩ ⟨"Other", 3⟩).2
      (by decide)).1

/-- C10: the initialization marker lives in the attribute namespace of
the cache entry, under the key actor_type itself.  After an
initialization, reading the attribute named like the actor type returns
the aggregate boolean init result rather than None; and when the entry
already holds any value under that key, initialization is considered
done and no init function runs. -/
theorem marker_shares_attribute_namespace (P : Principals) (t : String)
    (a c : PyVal) (d : AbacDict) :
    (alContains d t = false →
       alGet (loadAbacDict P t a c d).1 t
         = some (PyVal.bool ((runInits (lookupInit P t) d a c).2.1)) ∧
       (get P t a t c d).1
         = PyVal.bool ((runInits (lookupInit P t) d a c).2.1)) ∧
    (alContains d t = true → loadAbacDict P t a c d = (d, [])) := by
  constructor
  · intro h
    have hl := loadAbacDict_of_not_contains P t a c d h
    have hg : alGet (loadAbacDict P t a c d).1 t
        = some (PyVal.bool ((runInits (lookupInit P t) d a c).2.1)) := by
      rw [hl]
      exact alGet_alSet_self _ _ _
    refine ⟨hg, ?_⟩
    show (alGet (loadAbacDict P t a c d).1 t).getD PyVal.none = _
    rw [hg]
    rfl
  · exact loadAbacDict_of_contains P t a c d

/-- C10 witness: with regInitOnly, the attribute named user on a fresh
entry reads back as the marker True; a pre-existing attribute under the
key user suppresses initialization entirely. -/
theorem marker_shares_attribute_namespace_witness :
    (get regInitOnly "user" (PyVal.str "bob") "user" PyVal.none []).1
      = PyVal.bool true ∧
    loadAbacDict regInitOnly "user" (PyVal.str "bob") PyVal.none
        [("user", PyVal.str "alice")]
      = ([("user", PyVal.str "alice")], []) := by
  constructor
  · exact ((marker_shares_attribute_namespace regInitOnly "user"
        (PyVal.str "bob") PyVal.none []).1 rfl).2
  · exact (marker_shares_attribute_namespace regInitOnly "user"
        (PyVal.str "bob") PyVal.none [("user", PyVal.str "alice")]).2 (by decide)

end Permissions
